import Mathlib

/-!
Verification of the result-reporting subsystem in `src/infra/report.py`
(classes `BenchmarkRunner` and `BenchmarkReporter`).

The Python code is shallowly embedded: files are lists of lines, the
filesystem is an explicit value, exceptions become `Except`, and the two
`ctx.log.warning` call sites become explicit warning lists.  Every
definition below is translated from the source; doc comments name the
Python symbol it embeds.
-/

namespace ReportSpec

/-- Python whitespace characters stripped by `str.rstrip()` (ASCII subset;
the metadata lines at issue are ASCII). -/
def pyWhitespace (c : Char) : Bool :=
  c == ' ' || c == '\t' || c == '\n' || c == '\x0d' || c == '\x0b' || c == '\x0c'

/-- Embeds Python `line.rstrip()`: removes trailing whitespace. -/
def pyRstrip (s : String) : String :=
  ⟨(s.data.reverse.dropWhile pyWhitespace).reverse⟩

/-- Decides whether the first list is an initial segment of the second
(Python `str.startswith`). -/
def isHeadOf : List Char → List Char → Bool
  | [], _ => true
  | _ :: _, [] => false
  | a :: as, b :: bs => a == b && isHeadOf as bs

/-- Embeds the module-level constant `prefix = '[setup-report]'` of
`src/infra/report.py` (renamed, since the source's name is a Lean keyword). -/
def setupReportTag : String := "[setup-report]"

/-- Embeds `line.startswith(prefix)` from `_parse_metadata`. -/
def strHasTag (s : String) : Bool :=
  isHeadOf setupReportTag.data s.data

/-- Embeds the slice `line[len(prefix) + 1:]` from `_parse_metadata`:
drops the tag and one further character, whatever it is. -/
def dropTagSpace (s : String) : String :=
  ⟨s.data.drop (setupReportTag.data.length + 1)⟩

/-- Splits at the first occurrence of the two-character separator
`': '`, returning the pieces before and after it; `none` when the
separator does not occur (Python `s.split(': ', 1)` then yields a
one-element list, and unpacking it into `name, value` raises
`ValueError`). -/
def splitFirstColonSpace : List Char → Option (List Char × List Char)
  | [] => none
  | ':' :: ' ' :: rest => some ([], rest)
  | c :: rest => (splitFirstColonSpace rest).map (fun p => (c :: p.1, p.2))

/-- String-level wrapper of `splitFirstColonSpace`; embeds
`line[len(prefix) + 1:].split(': ', 1)`. -/
def pySplitColonSpace (s : String) : Option (String × String) :=
  (splitFirstColonSpace s.data).map (fun p => (⟨p.1⟩, ⟨p.2⟩))

/-- Association-list lookup with Python-dict semantics (first match;
keys are unique by construction). -/
def lookupKey : List (String × String) → String → Option String
  | [], _ => none
  | (k', v) :: rest, k => if k' = k then some v else lookupKey rest k

/-- Embeds the Python membership test `name in meta`. -/
def hasKeyB (m : List (String × String)) (k : String) : Bool :=
  (lookupKey m k).isSome

/-- Embeds the Python dict assignment `meta[name] = value`: an existing
key keeps its position and gets the new value, a new key is appended. -/
def dictInsert : List (String × String) → String → String → List (String × String)
  | [], k, v => [(k, v)]
  | (k', v') :: rest, k, v =>
    if k' = k then (k', v) :: rest else (k', v') :: dictInsert rest k v

/-- State threaded through `BenchmarkReporter._parse_metadata`: the dict
`meta` under construction plus the duplicate-key warnings emitted so far
(each a pair of the duplicated key and the source path, the two data the
warning message names). -/
structure ParseState where
  meta : List (String × String)
  warnings : List (String × String)

/-- Embeds one iteration of the loop body of
`BenchmarkReporter._parse_metadata` (src/infra/report.py lines 170-188):
rstrip the line; if it starts with the tag, split the remainder of the
slice on `': '` — an absent separator is the `ValueError` raised by the
two-variable unpack — otherwise record the pair, warning first when the
key is already present. -/
def parseMetaStep (path : String) (st : ParseState) (rawLine : String) :
    Except String ParseState :=
  if strHasTag (pyRstrip rawLine) then
    match pySplitColonSpace (dropTagSpace (pyRstrip rawLine)) with
    | none => Except.error "ValueError: not enough values to unpack"
    | some nv =>
      Except.ok ⟨dictInsert st.meta nv.1 nv.2,
        if hasKeyB st.meta nv.1 then st.warnings ++ [(nv.1, path)] else st.warnings⟩
  else Except.ok st

/-- Embeds the `for line in f` loop of `_parse_metadata`; a raised
exception aborts the whole call. -/
def parseMetadataFrom (path : String) (st : ParseState) :
    List String → Except String ParseState
  | [] => Except.ok st
  | l :: ls =>
    match parseMetaStep path st l with
    | Except.error e => Except.error e
    | Except.ok st' => parseMetadataFrom path st' ls

/-- Embeds `BenchmarkReporter._parse_metadata(path)` (src/infra/report.py
lines 166-190) on the file's lines, starting from the empty dict. -/
def parseMetadata (path : String) (lines : List String) : Except String ParseState :=
  parseMetadataFrom path ⟨[], []⟩ lines

/-- Embeds `BenchmarkRunner.report(data)` (src/infra/report.py lines
96-108): the lines it prints — begin marker, a target and an instance
entry, one line per key/value of `data` in order, end marker. -/
def reportLines (targetName instanceName : String)
    (data : List (String × String)) : List String :=
  (setupReportTag ++ " begin") ::
  (setupReportTag ++ " target: " ++ targetName) ::
  (setupReportTag ++ " instance: " ++ instanceName) ::
  (data.map (fun kv => setupReportTag ++ " " ++ kv.1 ++ ": " ++ kv.2) ++
    [setupReportTag ++ " end"])

/-- Claim C1, counterexample: for the record R = {} (whose values
vacuously contain no newline and whose keys contain no `': '`), decoding
the text produced by encoding R does not yield R — `_parse_metadata`
raises `ValueError` on the very first line, the `[setup-report] begin`
marker that `report` itself wrote, so `decode(encode(R)) == R` fails. -/
theorem c1_roundtrip_counterexample :
    parseMetadata "run.log" (reportLines "spec2006" "default" []) =
      Except.error "ValueError: not enough values to unpack"
    ∧ parseMetadata "run.log" (reportLines "spec2006" "default" []) ≠
      Except.ok ⟨[], []⟩ := by
  refine ⟨rfl, ?_⟩
  intro h
  rw [show parseMetadata "run.log" (reportLines "spec2006" "default" []) =
      Except.error "ValueError: not enough values to unpack" from rfl] at h
  exact Except.noConfusion h

/-- Claim C1, amended: for every record R (whatever its keys and values),
decoding the text produced by encoding R fails with the unpack
`ValueError` on the begin marker line, which contains no `': '`
separator; the round-trip law `decode(encode(R)) == R` never holds. -/
theorem c1_roundtrip_amended (path targetName instanceName : String)
    (data : List (String × String)) :
    parseMetadata path (reportLines targetName instanceName data) =
      Except.error "ValueError: not enough values to unpack" := rfl

/-- Claim C2: the decoder does not ignore the marker lines — a text
containing `[setup-report] begin` (or `[setup-report] end`), the very
lines the encoder writes, makes `_parse_metadata` raise `ValueError`
instead of treating them as ordinary output. -/
theorem c2_decode_crashes_on_markers :
    parseMetadata "results.txt" ["[setup-report] begin"] =
      Except.error "ValueError: not enough values to unpack"
    ∧ parseMetadata "results.txt" ["[setup-report] end"] =
      Except.error "ValueError: not enough values to unpack"
    ∧ parseMetadata "results.txt" ["ordinary output", "[setup-report] ok: yes"] =
      Except.ok ⟨[("ok", "yes")], []⟩ :=
  ⟨rfl, rfl, rfl⟩

/-- Classifies one raw line the way the loop body of `_parse_metadata`
does: `some (key, value)` for a line the loop records, `none` for a line
it skips or chokes on. -/
def lineKV (rawLine : String) : Option (String × String) :=
  if strHasTag (pyRstrip rawLine) then
    pySplitColonSpace (dropTagSpace (pyRstrip rawLine))
  else none

/-- Left-biased choice on optional values. -/
def optOr : Option String → Option String → Option String
  | some v, _ => some v
  | none, o => o

/-- Value of the last qualifying occurrence of key `k` in the lines. -/
def lastVal (k : String) : List String → Option String
  | [] => none
  | l :: ls =>
    optOr (lastVal k ls)
      (match lineKV l with
       | some nv => if nv.1 = k then some nv.2 else none
       | none => none)

/-- Number of qualifying occurrences of key `k` in the lines. -/
def occKey (k : String) : List String → Nat
  | [] => 0
  | l :: ls =>
    (match lineKV l with
     | some nv => if nv.1 = k then 1 else 0
     | none => 0) + occKey k ls

/-- Number of duplicate warnings naming key `k`. -/
def countKeyWarnings (k : String) : List (String × String) → Nat
  | [] => 0
  | w :: ws => (if w.1 = k then 1 else 0) + countKeyWarnings k ws

theorem optOr_none_right (o : Option String) : optOr o none = o := by
  cases o <;> rfl

theorem lookupKey_dictInsert (m : List (String × String)) (n v k : String) :
    lookupKey (dictInsert m n v) k = if n = k then some v else lookupKey m k := by
  induction m with
  | nil => by_cases h : n = k <;> simp [dictInsert, lookupKey, h]
  | cons p rest ih =>
    obtain ⟨k', v'⟩ := p
    by_cases h1 : k' = n
    · subst h1
      by_cases h2 : k' = k <;> simp [dictInsert, lookupKey, h2]
    · by_cases h2 : k' = k
      · have hn : ¬ n = k := fun h => h1 (h2.trans h.symm)
        have hn' : ¬ k = n := fun h => h1 (h2.trans h)
        simp [dictInsert, lookupKey, h1, h2, hn, hn']
      · simp [dictInsert, lookupKey, h1, h2, ih]

theorem hasKeyB_dictInsert (m : List (String × String)) (n v k : String) :
    hasKeyB (dictInsert m n v) k = if n = k then true else hasKeyB m k := by
  by_cases h : n = k <;> simp [hasKeyB, lookupKey_dictInsert, h]

theorem countKeyWarnings_append (k : String) (ws ws' : List (String × String)) :
    countKeyWarnings k (ws ++ ws') = countKeyWarnings k ws + countKeyWarnings k ws' := by
  induction ws with
  | nil => simp [countKeyWarnings]
  | cons w rest ih => simp [countKeyWarnings, ih]; omega

/-- Invariant of the `_parse_metadata` loop: on a successful run the final
dict holds, for each key, the value of its last qualifying line (falling
back to the incoming dict), the warnings naming key `k` grow by one per
qualifying occurrence of `k` beyond the first-ever one, and every new
warning names the scanned path. -/
theorem parseFrom_spec (lines : List String) :
    ∀ (path : String) (st st' : ParseState),
      parseMetadataFrom path st lines = Except.ok st' →
      ∀ k : String,
        lookupKey st'.meta k = optOr (lastVal k lines) (lookupKey st.meta k)
        ∧ countKeyWarnings k st'.warnings =
            countKeyWarnings k st.warnings +
              (if hasKeyB st.meta k then occKey k lines else occKey k lines - 1)
        ∧ (∀ w, w ∈ st'.warnings → w ∈ st.warnings ∨ w.2 = path) := by
  induction lines with
  | nil =>
    intro path st st' h k
    simp only [parseMetadataFrom] at h
    injection h with h
    subst h
    refine ⟨by simp [lastVal, optOr], ?_, fun w hw => Or.inl hw⟩
    cases hk : hasKeyB st.meta k <;> simp [occKey, hk]
  | cons l ls ih =>
    intro path st st' h k
    simp only [parseMetadataFrom] at h
    cases htag : strHasTag (pyRstrip l) with
    | false =>
      simp only [parseMetaStep, htag, Bool.false_eq_true, if_false] at h
      obtain ⟨h1, h2, h3⟩ := ih path st st' h k
      exact ⟨by simpa [lastVal, lineKV, htag, optOr_none_right] using h1,
             by simpa [occKey, lineKV, htag] using h2, h3⟩
    | true =>
      simp only [parseMetaStep, htag, if_true] at h
      cases hsplit : pySplitColonSpace (dropTagSpace (pyRstrip l)) with
      | none =>
        rw [hsplit] at h
        exact Except.noConfusion h
      | some nv =>
        rw [hsplit] at h
        simp only at h
        obtain ⟨h1, h2, h3⟩ := ih path
          ⟨dictInsert st.meta nv.1 nv.2,
            if hasKeyB st.meta nv.1 then st.warnings ++ [(nv.1, path)] else st.warnings⟩
          st' h k
        refine ⟨?_, ?_, ?_⟩
        · rw [h1]
          simp only [lookupKey_dictInsert]
          have hlast : lastVal k (l :: ls) =
              optOr (lastVal k ls) (if nv.1 = k then some nv.2 else none) := by
            simp [lastVal, lineKV, htag, hsplit]
          rw [hlast]
          cases hl : lastVal k ls <;> by_cases hk : nv.1 = k <;> simp [optOr, hk]
        · rw [h2]
          have hocc : occKey k (l :: ls) = (if nv.1 = k then 1 else 0) + occKey k ls := by
            simp [occKey, lineKV, htag, hsplit]
          rw [hocc]
          simp only [hasKeyB_dictInsert]
          by_cases hk : nv.1 = k
          · subst hk
            cases hdup : hasKeyB st.meta nv.1 <;>
              simp [hdup, countKeyWarnings_append, countKeyWarnings]
            all_goals omega
          · cases hdup : hasKeyB st.meta nv.1 <;>
              cases hk2 : hasKeyB st.meta k <;>
              simp [hdup, hk2, hk, countKeyWarnings_append, countKeyWarnings]
        · intro w hw
          rcases h3 w hw with hmem | hpath
          · cases hdup : hasKeyB st.meta nv.1 <;> rw [hdup] at hmem
            · simp only [Bool.false_eq_true, if_false] at hmem
              exact Or.inl hmem
            · simp only [if_true] at hmem
              rcases List.mem_append.mp hmem with hl' | hr
              · exact Or.inl hl'
              · right
                have : w = (nv.1, path) := by simpa using hr
                rw [this]
          · exact Or.inr hpath

/-- The example file used by claims C4: interleaved noise plus the
prefixed lines `a: 1`, `b: 2`, `a: 3`. -/
def c4ExampleLines : List String :=
  ["some benchmark noise", "[setup-report] a: 1", "more noise",
   "[setup-report] b: 2", "[setup-report] a: 3"]

/-- A file in which the key `a` occurs on three qualifying lines. -/
def c4TripleLines : List String :=
  ["[setup-report] a: 1", "[setup-report] a: 2", "[setup-report] a: 3"]

/-- Claim C4, counterexample: in a file where the single duplicated key
`a` occurs three times, `_parse_metadata` emits two duplicate warnings
for `a`, not exactly one per duplicated key (the later value still
wins). -/
theorem c4_duplicate_key_counterexample :
    parseMetadata "dup.log" c4TripleLines =
      Except.ok ⟨[("a", "3")], [("a", "dup.log"), ("a", "dup.log")]⟩
    ∧ countKeyWarnings "a" [("a", "dup.log"), ("a", "dup.log")] = 2 :=
  ⟨rfl, rfl⟩

/-- Claim C4, amended: when decode encounters an already-present key, the
later occurrence wins and a non-fatal warning naming the source file and
the key is raised at each repeated occurrence — occurrences-minus-one
warnings per duplicated key, not exactly one; in particular the example
file with qualifying lines `a: 1`, `b: 2`, `a: 3` decodes to
{a: "3", b: "2"} with exactly one duplicate warning for `a`. -/
theorem c4_duplicate_key_amended (path : String) (lines : List String)
    (st' : ParseState) (h : parseMetadata path lines = Except.ok st') (k : String) :
    lookupKey st'.meta k = lastVal k lines
    ∧ countKeyWarnings k st'.warnings = occKey k lines - 1
    ∧ (∀ w, w ∈ st'.warnings → w.2 = path) := by
  simp only [parseMetadata] at h
  obtain ⟨h1, h2, h3⟩ := parseFrom_spec lines path ⟨[], []⟩ st' h k
  refine ⟨?_, ?_, ?_⟩
  · rw [h1]; cases lastVal k lines <;> simp [optOr, lookupKey]
  · simpa [hasKeyB, lookupKey, countKeyWarnings] using h2
  · intro w hw
    rcases h3 w hw with hmem | hpath
    · exact absurd hmem (List.not_mem_nil w)
    · exact hpath

/-- Claim C4, witness: the amended theorem applied to the example file of
the claim — it decodes with `a` bound to `"3"` and exactly one
(3 occurrences of `a` would give 2, here 2 give 1) duplicate warning. -/
theorem c4_duplicate_key_witness :
    lookupKey [("a", "3"), ("b", "2")] "a" = lastVal "a" c4ExampleLines
    ∧ countKeyWarnings "a" [("a", "results.log")] = occKey "a" c4ExampleLines - 1 :=
  ⟨(c4_duplicate_key_amended "results.log" c4ExampleLines
      ⟨[("a", "3"), ("b", "2")], [("a", "results.log")]⟩ rfl "a").1,
   (c4_duplicate_key_amended "results.log" c4ExampleLines
      ⟨[("a", "3"), ("b", "2")], [("a", "results.log")]⟩ rfl "a").2.1⟩

/-- Embeds the per-file loop over one instance directory in
`BenchmarkReporter.parse_rundirs` (src/infra/report.py lines 160-164):
each regular file directly inside the directory yields one entry pairing
its path with the decoded metadata; a raised exception aborts the pass.
A file is a pair of its name and its lines. -/
def collectFilesIn (idir : String) :
    List (String × List String) → Except String (List (String × ParseState))
  | [] => Except.ok []
  | f :: fs =>
    match parseMetadata (idir ++ "/" ++ f.1) f.2 with
    | Except.error e => Except.error e
    | Except.ok st =>
      match collectFilesIn idir fs with
      | Except.error e => Except.error e
      | Except.ok rest => Except.ok ((idir ++ "/" ++ f.1, st) :: rest)

/-- Embeds the aggregation loop of `parse_rundirs` over all discovered
instance directories (each given with its directory listing). -/
def collect :
    List (String × List (String × List String)) →
      Except String (List (String × ParseState))
  | [] => Except.ok []
  | d :: ds =>
    match collectFilesIn d.1 d.2 with
    | Except.error e => Except.error e
    | Except.ok entries =>
      match collect ds with
      | Except.error e => Except.error e
      | Except.ok rest => Except.ok (entries ++ rest)

/-- Claim C5: `collect` over two files — one with no metadata at all, one
being a genuine result file whose block was written by
`BenchmarkRunner.report` — does not produce two entries with one empty
record: it raises `ValueError` on the `[setup-report] begin` marker of
the second file, so aggregation over files produced by the intended
write path always fails. -/
theorem c5_collect_crashes :
    collect
      [("rundir/foo/x",
        [("noise.txt", ["hello world"]),
         ("bench.log",
          ["some output", "[setup-report] begin",
           "[setup-report] runtime: 5", "[setup-report] end"])])] =
      Except.error "ValueError: not enough values to unpack"
    ∧ collect [("rundir/foo/x", [("noise.txt", ["hello world"])])] =
      Except.ok [("rundir/foo/x/noise.txt", ⟨[], []⟩)] :=
  ⟨rfl, rfl⟩

/-- Embeds the inner loop of `parse_rundirs` (src/infra/report.py lines
151-155): over the listing of `targetdir` (entries given with their
is-directory bit), keep each subdirectory whose name passes the instance
filter, building `os.path.join(targetdir, subdir)`. -/
def listInstanceDirs (targetdir : String) (instanceNames : List String) :
    List (String × Bool) → List String
  | [] => []
  | e :: rest =>
    if e.2 then
      if instanceNames.isEmpty || instanceNames.contains e.1 then
        (targetdir ++ "/" ++ e.1) :: listInstanceDirs targetdir instanceNames rest
      else listInstanceDirs targetdir instanceNames rest
    else listInstanceDirs targetdir instanceNames rest

/-- Embeds the run-root loop of `BenchmarkReporter.parse_rundirs`
(src/infra/report.py lines 148-158).  Each run root is paired with
`some listing` when the subdirectory named after the target exists
(the listing of that subdirectory) and `none` when it does not; the
result is the collected instance directories together with the
missing-target warnings, each naming the run root and the target. -/
def discoverRundirs (targetName : String) (instanceNames : List String) :
    List (String × Option (List (String × Bool))) →
      List String × List (String × String)
  | [] => ([], [])
  | r :: rest =>
    match r.2 with
    | some entries =>
      (listInstanceDirs (r.1 ++ "/" ++ targetName) instanceNames entries ++
        (discoverRundirs targetName instanceNames rest).1,
       (discoverRundirs targetName instanceNames rest).2)
    | none =>
      ((discoverRundirs targetName instanceNames rest).1,
       (r.1, targetName) :: (discoverRundirs targetName instanceNames rest).2)

theorem listInstanceDirs_eq (targetdir : String) (instanceNames : List String)
    (entries : List (String × Bool)) :
    listInstanceDirs targetdir instanceNames entries =
      entries.filterMap (fun e =>
        if e.2 && (instanceNames.isEmpty || instanceNames.contains e.1)
        then some (targetdir ++ "/" ++ e.1) else none) := by
  induction entries with
  | nil => rfl
  | cons e rest ih =>
    cases hd : e.2 <;> simp [listInstanceDirs, List.filterMap_cons, hd, ih]
    by_cases hc : instanceNames = [] ∨ e.1 ∈ instanceNames <;> simp [hc]

/-- Claim C6: for every run root, a missing target subdirectory yields
one warning naming the root and the target and contributes no instance
directories; a present one contributes exactly its immediate
subdirectories whose name passes the filter (kept iff the filter is
empty or contains the name); concretely, instances {x, y, z} filtered by
{y} yield only y, and a root without the target subdirectory yields only
a warning. -/
theorem c6_discover_rundirs :
    (∀ (targetName : String) (instanceNames : List String)
       (rundirs : List (String × Option (List (String × Bool)))),
      (discoverRundirs targetName instanceNames rundirs).2 =
        rundirs.filterMap (fun r =>
          match r.2 with
          | none => some (r.1, targetName)
          | some _ => none)
      ∧ (discoverRundirs targetName instanceNames rundirs).1 =
        rundirs.flatMap (fun r =>
          match r.2 with
          | none => []
          | some entries =>
            entries.filterMap (fun e =>
              if e.2 && (instanceNames.isEmpty || instanceNames.contains e.1)
              then some (r.1 ++ "/" ++ targetName ++ "/" ++ e.1) else none)))
    ∧ discoverRundirs "foo" ["y"]
        [("root", some [("x", true), ("y", true), ("z", true)])] =
      (["root/foo/y"], [])
    ∧ discoverRundirs "foo" [] [("emptyroot", none)] =
      ([], [("emptyroot", "foo")]) := by
  refine ⟨?_, rfl, rfl⟩
  intro targetName instanceNames rundirs
  induction rundirs with
  | nil => exact ⟨rfl, rfl⟩
  | cons r rest ih =>
    obtain ⟨ih1, ih2⟩ := ih
    cases hr : r.2 with
    | none => simp [discoverRundirs, hr, List.filterMap_cons, ih1, ih2]
    | some entries =>
      simp [discoverRundirs, hr, List.filterMap_cons, ih1, ih2,
        listInstanceDirs_eq]

/-- Execution job as annotated by `BenchmarkRunner`: an optional declared
output-file path (`hasattr(job, 'outfile')`), the live-tee flag
`job.teeout`, and the captured standard output `job.stdout`. -/
structure Job where
  outfile : Option String
  teeout : Bool
  stdout : String

/-- Destination of a metadata flush in `BenchmarkRunner._print_footer`. -/
inductive FooterDest where
  | appendToOutfile (path : String)
  | inlineStdout
  | appendToRunlog (path : String)

/-- Embeds `BenchmarkRunner._print_footer` (src/infra/report.py lines
78-94) as the list of metadata-flush writes it performs: each write pairs
the destination with the raw output text handed to the target's
`report_result`.  With an output file declared the file's own content is
re-read and passed; otherwise the captured stdout is passed. -/
def printFooterWrites (runlogPath : String) (outfileContent : String)
    (job : Job) : List (FooterDest × String) :=
  match job.outfile with
  | some p => [(FooterDest.appendToOutfile p, outfileContent)]
  | none =>
    if job.teeout then [(FooterDest.inlineStdout, job.stdout)]
    else [(FooterDest.appendToRunlog runlogPath, job.stdout)]

/-- Numeric kind of a destination, forgetting the path. -/
def destKind : FooterDest → Nat
  | FooterDest.appendToOutfile _ => 0
  | FooterDest.inlineStdout => 1
  | FooterDest.appendToRunlog _ => 2

/-- Destination choice written as a pure function of the two job
attributes only. -/
def selectByFlags (hasOutfile teeFlag : Bool) : Nat :=
  if hasOutfile then 0 else if teeFlag then 1 else 2

/-- Claim C3: the destination step of `_print_footer` is a pure function
of (has-output-file, tee-flag) — with an output file the block goes to
that file, else with the tee flag to the live stdout stream, else to the
shared run log — and every job triggers exactly one write, whose kind is
`selectByFlags` of the two attributes. -/
theorem c3_footer_destination :
    (∀ (rl c p s : String) (t : Bool),
      printFooterWrites rl c ⟨some p, t, s⟩ = [(FooterDest.appendToOutfile p, c)])
    ∧ (∀ rl c s : String,
      printFooterWrites rl c ⟨none, true, s⟩ = [(FooterDest.inlineStdout, s)])
    ∧ (∀ rl c s : String,
      printFooterWrites rl c ⟨none, false, s⟩ = [(FooterDest.appendToRunlog rl, s)])
    ∧ (∀ (rl c : String) (j : Job),
      (printFooterWrites rl c j).map (fun w => destKind w.1) =
        [selectByFlags j.outfile.isSome j.teeout]) := by
  refine ⟨fun _ _ _ _ _ => rfl, fun _ _ _ => rfl, fun _ _ _ => rfl, ?_⟩
  intro rl c j
  obtain ⟨o, t, s⟩ := j
  cases o <;> cases t <;> rfl

/-- Outcome of `BenchmarkReporter.report(mode)`: normal completion with
the ordinary output captured into the output sink by `redirect_stdout`,
a propagated `NotImplementedError`, or the `FatalError` raised for an
unknown mode. -/
inductive RenderResult where
  | ok (sinkOutput : String)
  | notImplemented
  | fatalError (msg : String)

/-- Embeds `BenchmarkReporter.report_brief` (src/infra/report.py lines
199-200): `pass` — it returns normally and prints nothing. -/
def report_brief : Except Unit String := Except.ok ""

/-- Embeds `BenchmarkReporter.report_full` (src/infra/report.py lines
202-203): `raise NotImplementedError`. -/
def report_full : Except Unit String := Except.error ()

/-- Embeds `BenchmarkReporter.report_csv` (src/infra/report.py lines
205-206): `raise NotImplementedError`. -/
def report_csv : Except Unit String := Except.error ()

/-- Embeds the reflective lookup `getattr(self, 'report_' + mode)` in
`BenchmarkReporter.report`: the attributes of the class whose name is
`report_` followed by the mode are exactly `report_brief`, `report_full`
and `report_csv`; any other mode raises `AttributeError` (`none`). -/
def getattrReportMode (mode : String) : Option (Except Unit String) :=
  if mode = "brief" then some report_brief
  else if mode = "full" then some report_full
  else if mode = "csv" then some report_csv
  else none

/-- Embeds `BenchmarkReporter.report(mode)` (src/infra/report.py lines
192-197): inside `redirect_stdout(self.outfile)` the mode's method is
looked up and called; an `AttributeError` becomes
`FatalError('unknown reporting mode "<mode>"')`, while any exception the
method itself raises (the `NotImplementedError` of full/csv) propagates
unchanged. -/
def reporterReport (mode : String) : RenderResult :=
  match getattrReportMode mode with
  | none => RenderResult.fatalError ("unknown reporting mode \"" ++ mode ++ "\"")
  | some (Except.ok out) => RenderResult.ok out
  | some (Except.error _) => RenderResult.notImplemented

/-- Claim C7: `report("brief")` succeeds with its (empty) ordinary output
captured into the sink; `report("xyz")` raises the configuration error
naming `xyz`; and in general the unknown-mode configuration error, which
always names the mode, occurs exactly for mode names other than the
three defined `report_` methods. -/
theorem c7_render_modes :
    reporterReport "brief" = RenderResult.ok ""
    ∧ reporterReport "xyz" = RenderResult.fatalError "unknown reporting mode \"xyz\""
    ∧ (∀ mode : String, ¬(mode = "brief" ∨ mode = "full" ∨ mode = "csv") →
        reporterReport mode =
          RenderResult.fatalError ("unknown reporting mode \"" ++ mode ++ "\""))
    ∧ (∀ mode : String, (mode = "brief" ∨ mode = "full" ∨ mode = "csv") →
        ∀ msg : String, reporterReport mode ≠ RenderResult.fatalError msg) := by
  refine ⟨rfl, rfl, ?_, ?_⟩
  · intro mode h
    have h1 : ¬ mode = "brief" := fun hh => h (Or.inl hh)
    have h2 : ¬ mode = "full" := fun hh => h (Or.inr (Or.inl hh))
    have h3 : ¬ mode = "csv" := fun hh => h (Or.inr (Or.inr hh))
    simp [reporterReport, getattrReportMode, h1, h2, h3]
  · intro mode h msg
    rcases h with h | h | h <;> subst h <;>
      simp [reporterReport, getattrReportMode, report_brief, report_full, report_csv]

/-- Claim C7, witness: the general clauses of the theorem applied at the
concrete modes of the claim — `xyz` is rejected with an error naming it,
`brief` never yields the configuration error. -/
theorem c7_render_modes_witness :
    reporterReport "xyz" =
      RenderResult.fatalError ("unknown reporting mode \"" ++ "xyz" ++ "\"")
    ∧ reporterReport "brief" ≠ RenderResult.fatalError "unknown reporting mode \"brief\"" :=
  ⟨c7_render_modes.2.2.1 "xyz" (by simp),
   c7_render_modes.2.2.2 "brief" (Or.inl rfl) "unknown reporting mode \"brief\""⟩

/-- Claim C10 (implicit): of the three defined rendering modes only
`brief` completes — `full` and `csv` are recognized mode names (the
reflective lookup finds their methods, so no unknown-mode configuration
error) yet both always fail with the propagated `NotImplementedError`. -/
theorem c10_unimplemented_modes :
    (getattrReportMode "full").isSome = true
    ∧ (getattrReportMode "csv").isSome = true
    ∧ reporterReport "full" = RenderResult.notImplemented
    ∧ reporterReport "csv" = RenderResult.notImplemented
    ∧ reporterReport "brief" = RenderResult.ok "" :=
  ⟨rfl, rfl, rfl, rfl, rfl⟩

/-- Reference timestamp (`self.ctx.timestamp`), split into the fields the
format string `run-%Y-%m-%d.%H:%M:%S` uses. -/
structure Timestamp where
  year : Nat
  month : Nat
  day : Nat
  hour : Nat
  minute : Nat
  second : Nat

/-- Two-digit zero padding of `strftime` numeric directives. -/
def pad2 (n : Nat) : String :=
  if n < 10 then "0" ++ toString n else toString n

/-- Four-digit zero padding of the `%Y` directive. -/
def pad4 (n : Nat) : String :=
  if n < 10 then "000" ++ toString n
  else if n < 100 then "00" ++ toString n
  else if n < 1000 then "0" ++ toString n
  else toString n

/-- Embeds `self.ctx.timestamp.strftime('run-%Y-%m-%d.%H:%M:%S')` from
`BenchmarkRunner._make_rundir`. -/
def strftimeRun (ts : Timestamp) : String :=
  "run-" ++ pad4 ts.year ++ "-" ++ pad2 ts.month ++ "-" ++ pad2 ts.day ++ "." ++
    pad2 ts.hour ++ ":" ++ pad2 ts.minute ++ ":" ++ pad2 ts.second

/-- Membership of a directory (a list of path components) in the
explicit filesystem state. -/
def memD : List (List String) → List String → Bool
  | [], _ => false
  | x :: xs, d => if x = d then true else memD xs d

/-- Creation of a single directory when absent (one level of
`os.makedirs` with `exist_ok=True`: an existing directory is not an
error and is left alone). -/
def addDir (fs : List (List String)) (d : List String) : List (List String) :=
  if memD fs d then fs else fs ++ [d]

/-- Every non-empty initial segment of the path, innermost last: the
chain of directories `os.makedirs` creates. -/
def pathAncestors : List String → List (List String)
  | [] => []
  | c :: rest => [c] :: (pathAncestors rest).map (fun p => c :: p)

/-- Embeds `os.makedirs(path, exist_ok=True)`: ensure the whole chain of
directories exists. -/
def makedirs (fs : List (List String)) (path : List String) : List (List String) :=
  (pathAncestors path).foldl addDir fs

/-- Embeds `BenchmarkRunner._make_rundir` (src/infra/report.py lines
48-53): join the results root with the timestamped run directory name,
the target name and the instance name, create the directories, and
return the path.  Paths are lists of components (`os.path.join` adds one
separator per component). -/
def makeRundir (fs : List (List String)) (root : List String) (ts : Timestamp)
    (targetName instanceName : String) : List (List String) × List String :=
  let path := root ++ [strftimeRun ts, targetName, instanceName]
  (makedirs fs path, path)

/-- Check that every listed directory exists in the filesystem state. -/
def allExistIn (paths : List (List String)) (fs : List (List String)) : Bool :=
  match paths with
  | [] => true
  | p :: ps => memD fs p && allExistIn ps fs

theorem memD_append (as bs : List (List String)) (d : List String) :
    memD (as ++ bs) d = (memD as d || memD bs d) := by
  induction as with
  | nil => simp [memD]
  | cons x xs ih =>
    by_cases h : x = d <;> simp [memD, h, ih]

theorem memD_foldl_addDir_of_memD (l : List (List String))
    (fs : List (List String)) (d : List String) (h : memD fs d = true) :
    memD (l.foldl addDir fs) d = true := by
  induction l generalizing fs with
  | nil => simpa using h
  | cons x xs ih =>
    rw [List.foldl_cons]
    apply ih
    unfold addDir
    cases hm : memD fs x
    · simp [memD_append, h]
    · exact h

theorem memD_foldl_addDir_of_mem (l : List (List String))
    (fs : List (List String)) (d : List String) (h : d ∈ l) :
    memD (l.foldl addDir fs) d = true := by
  induction l generalizing fs with
  | nil => exact absurd h (List.not_mem_nil d)
  | cons x xs ih =>
    rw [List.foldl_cons]
    rcases List.mem_cons.mp h with heq | hmem
    · subst heq
      apply memD_foldl_addDir_of_memD
      unfold addDir
      cases hm : memD fs d <;> simp [memD_append, memD, hm]
    · exact ih (addDir fs x) hmem

theorem foldl_addDir_of_all_memD (l : List (List String))
    (fs : List (List String)) (h : ∀ x ∈ l, memD fs x = true) :
    l.foldl addDir fs = fs := by
  induction l with
  | nil => rfl
  | cons x xs ih =>
    rw [List.foldl_cons]
    have hx : addDir fs x = fs := by
      unfold addDir
      rw [h x (List.mem_cons_self x xs)]
      simp
    rw [hx]
    exact ih (fun y hy => h y (List.mem_cons_of_mem x hy))

theorem allExistIn_of_forall (paths fs : List (List String))
    (h : ∀ p ∈ paths, memD fs p = true) : allExistIn paths fs = true := by
  induction paths with
  | nil => rfl
  | cons p ps ih =>
    simp only [allExistIn, Bool.and_eq_true]
    exact ⟨h p (List.mem_cons_self p ps),
           ih (fun q hq => h q (List.mem_cons_of_mem p hq))⟩

/-- Claim C8: `_make_rundir` returns the path
root/run-YYYY-MM-DD.HH:MM:SS/target/instance (zero-padded fields), after
it every directory on that chain exists, and a repeated call with
identical inputs succeeds, changes nothing, and returns the same path. -/
theorem c8_make_rundir (fs : List (List String)) (root : List String)
    (ts : Timestamp) (targetName instanceName : String) :
    (makeRundir fs root ts targetName instanceName).2 =
      root ++ ["run-" ++ pad4 ts.year ++ "-" ++ pad2 ts.month ++ "-" ++
        pad2 ts.day ++ "." ++ pad2 ts.hour ++ ":" ++ pad2 ts.minute ++ ":" ++
        pad2 ts.second, targetName, instanceName]
    ∧ allExistIn (pathAncestors (makeRundir fs root ts targetName instanceName).2)
        (makeRundir fs root ts targetName instanceName).1 = true
    ∧ (makeRundir (makeRundir fs root ts targetName instanceName).1
        root ts targetName instanceName).2 =
      (makeRundir fs root ts targetName instanceName).2
    ∧ (makeRundir (makeRundir fs root ts targetName instanceName).1
        root ts targetName instanceName).1 =
      (makeRundir fs root ts targetName instanceName).1 := by
  have hall : allExistIn
      (pathAncestors (root ++ [strftimeRun ts, targetName, instanceName]))
      (makedirs fs (root ++ [strftimeRun ts, targetName, instanceName])) = true := by
    apply allExistIn_of_forall
    intro p hp
    exact memD_foldl_addDir_of_mem _ fs p hp
  refine ⟨rfl, hall, rfl, ?_⟩
  show makedirs (makedirs fs _) _ = makedirs fs _
  apply foldl_addDir_of_all_memD
  intro x hx
  exact memD_foldl_addDir_of_mem _ fs x hx

/-- Events observable during the delegated (pool) regime of
`BenchmarkRunner.run`: the metadata flush `self._print_footer(job)` and
the caller-supplied `onsuccess(job)` continuation, tagged by job. -/
inductive RunEvent where
  | flushFooter (jobId : Nat)
  | userOnSuccess (jobId : Nat)

/-- Embeds the wrapping continuation `callback` defined inside
`BenchmarkRunner.run` (src/infra/report.py lines 65-68): first
`self._print_footer(job)`, then — only when the caller supplied one —
`onsuccess(job)`. -/
def poolCallbackEvents (hasOnSuccess : Bool) (jobId : Nat) : List RunEvent :=
  RunEvent.flushFooter jobId ::
    (if hasOnSuccess then [RunEvent.userOnSuccess jobId] else [])

/-- Trace of the delegated regime: the pool invokes the wrapping
continuation exactly once per job it reports as complete (the pool
collaborator's contract), in completion order. -/
def runWithPool (hasOnSuccess : Bool) : List Nat → List RunEvent
  | [] => []
  | j :: rest => poolCallbackEvents hasOnSuccess j ++ runWithPool hasOnSuccess rest

/-- Event at position `i` of a trace. -/
def eventAt : List RunEvent → Nat → Option RunEvent
  | [], _ => none
  | e :: _, 0 => some e
  | _ :: rest, n + 1 => eventAt rest n

/-- Decides whether the event is the metadata flush of job `j`. -/
def isFlushOf (j : Nat) : RunEvent → Bool
  | RunEvent.flushFooter j' => j' == j
  | RunEvent.userOnSuccess _ => false

/-- Decides whether some position strictly before `i` in the trace holds
the metadata flush of job `j`. -/
def flushedBefore : List RunEvent → Nat → Nat → Bool
  | _, 0, _ => false
  | [], _ + 1, _ => false
  | e :: rest, n + 1, j => isFlushOf j e || flushedBefore rest n j

/-- Claim C9: in the delegated (pool) regime, whenever the caller's
on-success continuation runs for a job, the metadata flush of that same
job has already happened strictly earlier in the trace — the caller
never observes a job whose metadata is not yet flushed. -/
theorem c9_flush_before_onsuccess (hasOn : Bool) (completed : List Nat)
    (i j : Nat)
    (h : eventAt (runWithPool hasOn completed) i = some (RunEvent.userOnSuccess j)) :
    flushedBefore (runWithPool hasOn completed) i j = true := by
  induction completed generalizing i with
  | nil => simp [runWithPool, eventAt] at h
  | cons c cs ih =>
    cases hasOn with
    | false =>
      cases i with
      | zero => simp [runWithPool, poolCallbackEvents, eventAt] at h
      | succ n =>
        have h' : eventAt (runWithPool false cs) n =
            some (RunEvent.userOnSuccess j) := by
          simpa [runWithPool, poolCallbackEvents, eventAt] using h
        have hrec := ih n h'
        simp [runWithPool, poolCallbackEvents, flushedBefore, hrec]
    | true =>
      cases i with
      | zero => simp [runWithPool, poolCallbackEvents, eventAt] at h
      | succ n =>
        cases n with
        | zero =>
          have hj : c = j := by
            simpa [runWithPool, poolCallbackEvents, eventAt] using h
          subst hj
          simp [runWithPool, poolCallbackEvents, flushedBefore, isFlushOf]
        | succ m =>
          have h' : eventAt (runWithPool true cs) m =
              some (RunEvent.userOnSuccess j) := by
            simpa [runWithPool, poolCallbackEvents, eventAt] using h
          have hrec := ih m h'
          simp [runWithPool, poolCallbackEvents, flushedBefore, eventAt, hrec]

/-- Claim C9, witness: in a one-job pool run with an on-success
continuation, the continuation fires at position 1 and the job's flush
indeed occurred strictly before it. -/
theorem c9_flush_before_onsuccess_witness :
    flushedBefore (runWithPool true [7]) 1 7 = true :=
  c9_flush_before_onsuccess true [7] 1 7 rfl

end ReportSpec
